import Mathlib

/-!
Shallow embedding of the two modules of the repository
(`src/mail.py` and `src/buildings.py`), followed by theorems checking the
specification's claims about them.

Python `float` computations are modelled over `ℚ`: every arithmetic
operation appearing in the source (addition, multiplication by decimal
literals, division by 1000.0) is exact on the values the spec reasons
about, so the rational model tracks the formulas of the code faithfully.
Python `int` is modelled by `Int`, Python lists by `List`, and the
mutation of `Person.owned_buildings` / `Building.__owner` by explicit
state passing over an `EstateState` record.
-/

namespace Mails

/-- `MAX_PARCEL_VOLUME` from `src/mail.py`: maximum volume for a valid parcel, in liters. -/
def MAX_PARCEL_VOLUME : Int := 50

/-- `DeliveryMode` enum from `src/mail.py`. -/
inductive DeliveryMode where
  | NORMAL
  | EXPRESS
deriving DecidableEq

/-- `DeliveryMode.__str__` from `src/mail.py`. -/
def DeliveryMode.str : DeliveryMode → String
  | .NORMAL => "normal"
  | .EXPRESS => "express"

/-- `Format` enum from `src/mail.py`. -/
inductive Format where
  | A3
  | A4
  | A5
deriving DecidableEq

/-- `Format.__str__` from `src/mail.py`: `self.name`. -/
def Format.str : Format → String
  | .A3 => "A3"
  | .A4 => "A4"
  | .A5 => "A5"

/-- The fields of the abstract base class `Mail` from `src/mail.py`. -/
structure MailBase where
  weight_g : Int
  delivery_mode : DeliveryMode
  delivery_address : String
deriving DecidableEq

/-- The `Mail` hierarchy of `src/mail.py` as a sum type: `Letter` adds a
`Format`, `Parcel` adds a volume in liters, `Advertisement` adds nothing. -/
inductive Mail where
  | letter (base : MailBase) (format : Format)
  | parcel (base : MailBase) (volume : Int)
  | advertisement (base : MailBase)
deriving DecidableEq

/-- The base-class fields of any mail. -/
def Mail.base : Mail → MailBase
  | .letter b _ => b
  | .parcel b _ => b
  | .advertisement b => b

/-- Attribute access `self.weight_g`. -/
def Mail.weight_g (m : Mail) : Int := m.base.weight_g

/-- Attribute access `self.delivery_mode`. -/
def Mail.delivery_mode (m : Mail) : DeliveryMode := m.base.delivery_mode

/-- Attribute access `self.delivery_address`. -/
def Mail.delivery_address (m : Mail) : String := m.base.delivery_address

/-- `Mail.weight_kg` property from `src/mail.py`: `self.weight_g / 1000.0`. -/
def Mail.weight_kg (m : Mail) : ℚ := (m.weight_g : ℚ) / 1000.0

/-- `frank_normal`, dispatched on the variant as in `src/mail.py`:
`Letter.frank_normal`, `Parcel.frank_normal`, `Advertisement.frank_normal`. -/
def Mail.frank_normal : Mail → ℚ
  | .letter base format =>
      (match format with
       | .A5 => (1.50 : ℚ)
       | .A4 => (2.50 : ℚ)
       | .A3 => (3.50 : ℚ)) + (Mail.letter base format).weight_kg
  | .parcel base volume => 0.25 * (volume : ℚ) + (Mail.parcel base volume).weight_kg
  | .advertisement base => 5.0 * (Mail.advertisement base).weight_kg

/-- `Mail.frank` from `src/mail.py`: `frank_normal`, doubled for `EXPRESS`. -/
def Mail.frank (m : Mail) : ℚ :=
  let base := m.frank_normal
  match m.delivery_mode with
  | .NORMAL => base
  | .EXPRESS => 2.0 * base

/-- `Mail.is_valid` from `src/mail.py`, the base implementation:
`self.delivery_address != ""`. -/
def Mail.base_is_valid (m : Mail) : Bool := m.delivery_address != ""

/-- `is_valid`, dispatched on the variant: `Letter` and `Advertisement`
inherit `Mail.is_valid`; `Parcel.is_valid` is
`super().is_valid() and self.volume <= MAX_PARCEL_VOLUME`. -/
def Mail.is_valid : Mail → Bool
  | m@(.parcel _ volume) => m.base_is_valid && decide (volume ≤ MAX_PARCEL_VOLUME)
  | m@(.letter _ _) => m.base_is_valid
  | m@(.advertisement _) => m.base_is_valid

/-- `Mail.general_info_str` from `src/mail.py`:
the f-string `"{weight_g} g, {delivery_mode}, pour '{delivery_address}'"`. -/
def Mail.general_info_str (m : Mail) : String :=
  toString m.weight_g ++ " g, " ++ m.delivery_mode.str ++ ", pour \x27"
    ++ m.delivery_address ++ "\x27"

/-- `Mail.invalid_str_suffix` from `src/mail.py`. -/
def Mail.invalid_str_suffix (m : Mail) : String :=
  if m.is_valid then "" else " (invalide)"

/-- `__str__`, dispatched on the variant (`Letter.__str__`, `Parcel.__str__`,
`Advertisement.__str__` from `src/mail.py`). -/
def Mail.str : Mail → String
  | m@(.letter _ format) =>
      "Lettre : " ++ m.general_info_str ++ ", " ++ format.str ++ m.invalid_str_suffix
  | m@(.parcel _ volume) =>
      "Colis : " ++ m.general_info_str ++ ", " ++ toString volume ++ " l"
        ++ m.invalid_str_suffix
  | m@(.advertisement _) =>
      "Publicité : " ++ m.general_info_str ++ m.invalid_str_suffix

/-- `Mailbox` from `src/mail.py`: its one field `__mails`. -/
structure Mailbox where
  mails : List Mail

/-- `Mailbox.frank` from `src/mail.py`:
`sum([mail.frank() for mail in self.__mails if mail.is_valid()])`. -/
def Mailbox.frank (bx : Mailbox) : ℚ :=
  ((bx.mails.filter Mail.is_valid).map Mail.frank).sum

/-- `Mailbox.invalid_mails` from `src/mail.py`:
`len([mail for mail in self.__mails if not mail.is_valid()])`. -/
def Mailbox.invalid_mails (bx : Mailbox) : Nat :=
  (bx.mails.filter (fun m => !m.is_valid)).length

/-- `Mailbox.display` from `src/mail.py`: one string per mail, in order. -/
def Mailbox.display (bx : Mailbox) : List String :=
  bx.mails.map Mail.str

/-- `Mailbox.add_mail` from `src/mail.py`: appends to `__mails`. -/
def Mailbox.add_mail (bx : Mailbox) (m : Mail) : Mailbox :=
  { bx with mails := bx.mails ++ [m] }

/-- Replacing only the delivery address of a mail, keeping every other
field: used to state that `frank` does not depend on the address. -/
def Mail.set_address : Mail → String → Mail
  | .letter b f, a => .letter { b with delivery_address := a } f
  | .parcel b v, a => .parcel { b with delivery_address := a } v
  | .advertisement b, a => .advertisement { b with delivery_address := a }

end Mails

namespace Mails

lemma sum_map_filter_eq_sum_if (l : List Mail) :
    ((l.filter Mail.is_valid).map Mail.frank).sum
      = (l.map (fun m => if m.is_valid then m.frank else 0)).sum := by
  induction l with
  | nil => rfl
  | cons m l ih =>
      by_cases h : m.is_valid
      · simp [List.filter_cons, h, ih]
      · simp [List.filter_cons, h, ih]

lemma length_filter_not_add_length_filter (l : List Mail) :
    (l.filter (fun m => !m.is_valid)).length + (l.filter (fun m => m.is_valid)).length
      = l.length := by
  induction l with
  | nil => rfl
  | cons m l ih =>
      by_cases h : m.is_valid
      · simp [List.filter_cons, h]; omega
      · simp [List.filter_cons, h]; omega

/-- C2: `frank_normal` of a `Letter` is `base(format) + weight_kg` with
`base(A5)=1.50`, `base(A4)=2.50`, `base(A3)=3.50`; of a `Parcel` it is
`0.25 * volume + weight_kg`; of an `Advertisement` it is `5.0 * weight_kg`;
where `weight_kg` is `weight_g / 1000.0`. -/
theorem frank_normal_formulas :
    (∀ b : MailBase, Mail.frank_normal (.letter b .A5) = 1.50 + (b.weight_g : ℚ) / 1000.0) ∧
    (∀ b : MailBase, Mail.frank_normal (.letter b .A4) = 2.50 + (b.weight_g : ℚ) / 1000.0) ∧
    (∀ b : MailBase, Mail.frank_normal (.letter b .A3) = 3.50 + (b.weight_g : ℚ) / 1000.0) ∧
    (∀ (b : MailBase) (v : Int),
      Mail.frank_normal (.parcel b v) = 0.25 * (v : ℚ) + (b.weight_g : ℚ) / 1000.0) ∧
    (∀ b : MailBase,
      Mail.frank_normal (.advertisement b) = 5.0 * ((b.weight_g : ℚ) / 1000.0)) ∧
    (∀ m : Mail, m.weight_kg = (m.weight_g : ℚ) / 1000.0) := by
  refine ⟨fun b => rfl, fun b => rfl, fun b => rfl, fun b v => rfl, fun b => rfl, fun m => rfl⟩

/-- C3: for every mail of every variant, `frank` returns `frank_normal`
unchanged when the delivery mode is `NORMAL`, and `2 * frank_normal` when
the delivery mode is `EXPRESS`. -/
theorem frank_express_doubles (m : Mail) :
    m.frank = if m.delivery_mode = .EXPRESS then 2 * m.frank_normal else m.frank_normal := by
  unfold Mail.frank
  cases h : m.delivery_mode
  · simp [h]
  · simp only [h, reduceIte]
    norm_num

/-- C10: `frank` is computed from the variant data alone, never from
validity: changing only the delivery address (in particular to the empty
string) never changes `frank`, and a `Parcel`'s `frank` follows the
franking formula for every volume, with no guard at `MAX_PARCEL_VOLUME`. -/
theorem frank_ignores_validity :
    (∀ (m : Mail) (a : String), (m.set_address a).frank = m.frank) ∧
    (∀ (b : MailBase) (v : Int),
      Mail.frank (.parcel b v)
        = (if b.delivery_mode = .EXPRESS then 2 else 1)
            * (0.25 * (v : ℚ) + (b.weight_g : ℚ) / 1000.0)) := by
  constructor
  · intro m a
    rcases m with ⟨b, f⟩ | ⟨b, v⟩ | b <;> rcases b with ⟨w, md, ad⟩ <;> cases md <;>
      simp [Mail.set_address, Mail.frank, Mail.frank_normal, Mail.weight_kg,
        Mail.weight_g, Mail.delivery_mode, Mail.base]
  · intro b v
    rcases b with ⟨w, md, ad⟩
    cases md <;>
      simp only [Mail.frank, Mail.frank_normal, Mail.weight_kg, Mail.weight_g,
        Mail.delivery_mode, Mail.base, reduceIte, reduceCtorEq] <;> norm_num

/-- C4: `is_valid` holds for a `Letter` or `Advertisement` iff the delivery
address is non-empty; for a `Parcel` iff the address is non-empty and the
volume is at most `MAX_PARCEL_VOLUME = 50`. -/
theorem is_valid_characterization :
    (∀ (b : MailBase) (f : Format),
      (Mail.letter b f).is_valid = true ↔ b.delivery_address ≠ "") ∧
    (∀ b : MailBase,
      (Mail.advertisement b).is_valid = true ↔ b.delivery_address ≠ "") ∧
    (∀ (b : MailBase) (v : Int),
      (Mail.parcel b v).is_valid = true ↔ (b.delivery_address ≠ "" ∧ v ≤ 50)) ∧
    MAX_PARCEL_VOLUME = 50 := by
  refine ⟨fun b f => ?_, fun b => ?_, fun b v => ?_, rfl⟩ <;>
    simp [Mail.is_valid, Mail.base_is_valid, Mail.delivery_address, Mail.base,
      MAX_PARCEL_VOLUME]

/-- C5: `Mailbox.frank` is the sum of `frank` over exactly the valid mails
(each invalid mail contributes `0`), and `invalid_mails` counts the mails
that are not valid (it complements the count of valid ones). -/
theorem mailbox_frank_and_invalid_count (bx : Mailbox) :
    bx.frank = (bx.mails.map (fun m => if m.is_valid then m.frank else 0)).sum ∧
    bx.invalid_mails = (bx.mails.filter (fun m => !m.is_valid)).length ∧
    bx.invalid_mails + (bx.mails.filter (fun m => m.is_valid)).length = bx.mails.length := by
  refine ⟨?_, rfl, ?_⟩
  · exact sum_map_filter_eq_sum_if bx.mails
  · exact length_filter_not_add_length_filter bx.mails

lemma quote_comma_merge (X : String) : ("\x27" : String) ++ (", " ++ X) = "\x27, " ++ X := by
  rw [← String.append_assoc]
  rfl

/-- C8: `str` of a `Letter` is exactly
`"Lettre : {weight_g} g, {mode}, pour '{address}', {FORMAT}{suffix}"`,
where the mode renders as `"normal"`/`"express"`, the format as
`"A3"`/`"A4"`/`"A5"`, and the suffix is `" (invalide)"` exactly when the
letter is invalid. -/
theorem letter_str_format :
    (∀ (b : MailBase) (f : Format),
      Mail.str (.letter b f)
        = "Lettre : " ++ toString b.weight_g ++ " g, " ++ b.delivery_mode.str
            ++ ", pour \x27" ++ b.delivery_address ++ "\x27, " ++ f.str
            ++ (if (Mail.letter b f).is_valid then "" else " (invalide)")) ∧
    DeliveryMode.str .NORMAL = "normal" ∧ DeliveryMode.str .EXPRESS = "express" ∧
    Format.str .A3 = "A3" ∧ Format.str .A4 = "A4" ∧ Format.str .A5 = "A5" := by
  refine ⟨fun b f => ?_, rfl, rfl, rfl, rfl, rfl⟩
  simp only [Mail.str, Mail.general_info_str, Mail.invalid_str_suffix,
    Mail.delivery_mode, Mail.delivery_address, Mail.weight_g, Mail.base,
    String.append_assoc, quote_comma_merge]

end Mails

namespace Estate

/-- `LIVING_AREA_TAX_RATE` from `src/buildings.py`. -/
def LIVING_AREA_TAX_RATE : ℚ := 5.6

/-- `GARDEN_AREA_TAX_RATE` from `src/buildings.py`. -/
def GARDEN_AREA_TAX_RATE : ℚ := 1.5

/-- Object identity of a `Person` instance. -/
abbrev PersonId := Nat

/-- Object identity of a `Building` instance. -/
abbrev BuildingId := Nat

/-- `Appartment` from `src/buildings.py`: a bare living area in m². -/
structure Appartment where
  living_area : Int

/-- The data of the two concrete `Building` subclasses of `src/buildings.py`:
`House` stores both areas, `AppartmentBuilding` stores its (snapshot-copied)
list of appartments. -/
inductive BuildingKind where
  | house (living_area garden_area : Int)
  | appartmentBuilding (appartments : List Appartment)

/-- The `living_area` property: `House` returns its field,
`AppartmentBuilding` returns
`sum([appartment.living_area for appartment in self.__appartments])`. -/
def BuildingKind.living_area : BuildingKind → Int
  | .house la _ => la
  | .appartmentBuilding apps => (apps.map Appartment.living_area).sum

/-- The `garden_area` property: `House` returns its field,
`AppartmentBuilding` always returns `0`. -/
def BuildingKind.garden_area : BuildingKind → Int
  | .house _ ga => ga
  | .appartmentBuilding _ => 0

/-- The mutable heap of the real-estate module: every `Person`'s
`owned_buildings` list, every constructed `Building`'s `__owner` field and
variant data, and the set of constructed buildings. -/
structure EstateState where
  buildings : List BuildingId
  owned : PersonId → List BuildingId
  owner : BuildingId → PersonId
  kind : BuildingId → BuildingKind

/-- `Building.__init__` from `src/buildings.py` (together with the subclass
constructor that stores the variant data `k`): sets `__owner` to
`initial_owner` and appends the new building to
`initial_owner.owned_buildings`. -/
def buildingInit (s : EstateState) (b : BuildingId) (initial_owner : PersonId)
    (k : BuildingKind) : EstateState :=
  { buildings := s.buildings ++ [b]
    owned := fun p => if p = initial_owner then s.owned p ++ [b] else s.owned p
    owner := fun c => if c = b then initial_owner else s.owner c
    kind := fun c => if c = b then k else s.kind c }

/-- The `owner` setter from `src/buildings.py`, in source order: first
`self.__owner.owned_buildings.remove(self)` (Python `list.remove` deletes
the first occurrence, as `List.erase` does), then `self.__owner = new_owner`,
then `new_owner.owned_buildings.append(self)`. -/
def ownerSet (s : EstateState) (b : BuildingId) (new_owner : PersonId) : EstateState :=
  let old_owner := s.owner b
  { buildings := s.buildings
    owned := fun p =>
      let after_remove := if p = old_owner then (s.owned p).erase b else s.owned p
      if p = new_owner then after_remove ++ [b] else after_remove
    owner := fun c => if c = b then new_owner else s.owner c
    kind := s.kind }

/-- The ownership invariant: a constructed building occurs exactly once in
its current owner's `owned_buildings` list and in nobody else's; an
unconstructed identifier occurs nowhere. -/
def exactlyOneOwner (s : EstateState) : Prop :=
  ∀ (b : BuildingId) (p : PersonId),
    (s.owned p).count b = if b ∈ s.buildings ∧ p = s.owner b then 1 else 0

/-- The initial heap: no persons own anything, no building is constructed. -/
def emptyEstate : EstateState :=
  { buildings := []
    owned := fun _ => []
    owner := fun _ => 0
    kind := fun _ => .house 0 0 }

/-- `compute_taxes_for_building` from `src/buildings.py`. -/
def compute_taxes_for_building (k : BuildingKind) : ℚ :=
  let living_area_taxes := LIVING_AREA_TAX_RATE * (k.living_area : ℚ)
  let garden_taxes := GARDEN_AREA_TAX_RATE * (k.garden_area : ℚ)
  living_area_taxes + garden_taxes

/-- `compute_taxes` from `src/buildings.py`:
`sum([compute_taxes_for_building(building) for building in person.owned_buildings])`. -/
def compute_taxes (s : EstateState) (p : PersonId) : ℚ :=
  ((s.owned p).map (fun b => compute_taxes_for_building (s.kind b))).sum

lemma emptyEstate_inv : exactlyOneOwner emptyEstate := by
  intro b p
  simp [emptyEstate, exactlyOneOwner]

lemma buildingInit_preserves_inv (s : EstateState) (b : BuildingId)
    (p : PersonId) (k : BuildingKind) (hinv : exactlyOneOwner s)
    (hfresh : b ∉ s.buildings) : exactlyOneOwner (buildingInit s b p k) := by
  intro c r
  have h1 := hinv c r
  by_cases hcb : c = b
  · subst hcb
    have h0 : ∀ r, (s.owned r).count c = 0 := by
      intro r
      have := hinv c r
      simp [hfresh] at this
      exact this
    by_cases hrp : r = p <;>
      simp [buildingInit, hrp, List.count_append, List.count_singleton', h0]
  · by_cases hrp : r = p
    · subst hrp
      simp [buildingInit, hcb, Ne.symm hcb, List.count_append,
        List.count_singleton', h1]
    · simp [buildingInit, hrp, hcb, Ne.symm hcb, h1]

end Estate

namespace Estate

lemma ownerSet_preserves_inv (s : EstateState) (b : BuildingId) (q : PersonId)
    (hinv : exactlyOneOwner s) (hb : b ∈ s.buildings) :
    exactlyOneOwner (ownerSet s b q) := by
  intro c r
  have h1 := hinv c r
  by_cases hcb : c = b
  · subst hcb
    have hA : ∀ r, ((if r = s.owner c then (s.owned r).erase c else s.owned r)).count c = 0 := by
      intro r
      have h2 := hinv c r
      by_cases hro : r = s.owner c
      · subst hro
        simp [hb] at h2
        simp [List.count_erase_self, h2]
      · simp [hro] at h2 ⊢
        exact h2
    by_cases hrq : r = q
    · subst hrq
      simp [ownerSet, hb, List.count_append, List.count_singleton', hA r]
    · simp [ownerSet, hb, hrq, hA r]
  · have howner : (ownerSet s b q).owner c = s.owner c := by simp [ownerSet, hcb]
    have hbuild : (ownerSet s b q).buildings = s.buildings := rfl
    have key : ((ownerSet s b q).owned r).count c = (s.owned r).count c := by
      simp only [ownerSet]
      by_cases hrq : r = q
      · subst hrq
        by_cases hro : r = s.owner b <;>
          simp [hro, List.count_append, List.count_singleton', Ne.symm hcb,
            List.count_erase_of_ne hcb]
      · by_cases hro : r = s.owner b
        · subst hro
          simp [hrq, List.count_erase_of_ne hcb]
        · simp [hrq, hro]
    rw [key, h1, hbuild, howner]

end Estate

namespace Estate

/-- C1: construction appends the new building to its initial owner's
collection, and the transfer `b.owner = q` removes `b` from the old owner's
collection, sets the owner to `q` and appends `b` to `q`'s collection; both
operations preserve the invariant that a constructed building occurs in
exactly one person's `owned_buildings` (its current owner's), so a building
is never absent from both collections or present in both. -/
theorem building_exactly_one_owner (s : EstateState) (b : BuildingId)
    (p q : PersonId) (k : BuildingKind) (hinv : exactlyOneOwner s) :
    (b ∉ s.buildings →
      exactlyOneOwner (buildingInit s b p k) ∧
      (buildingInit s b p k).owned p = s.owned p ++ [b] ∧
      (buildingInit s b p k).owner b = p) ∧
    (b ∈ s.buildings → s.owner b = p →
      exactlyOneOwner (ownerSet s b q) ∧
      (ownerSet s b q).owner b = q ∧
      b ∈ (ownerSet s b q).owned q ∧
      (p ≠ q →
        b ∉ (ownerSet s b q).owned p ∧
        (ownerSet s b q).owned p = (s.owned p).erase b ∧
        (ownerSet s b q).owned q = s.owned q ++ [b])) := by
  constructor
  · intro hfresh
    refine ⟨buildingInit_preserves_inv s b p k hinv hfresh, ?_, ?_⟩
    · simp [buildingInit]
    · simp [buildingInit]
  · intro hb hp
    have hinv2 := ownerSet_preserves_inv s b q hinv hb
    refine ⟨hinv2, ?_, ?_, ?_⟩
    · simp [ownerSet]
    · simp [ownerSet]
    · intro hpq
      refine ⟨?_, ?_, ?_⟩
      · have h0 := hinv2 b p
        have hno : ¬ (b ∈ (ownerSet s b q).buildings ∧ p = (ownerSet s b q).owner b) := by
          rintro ⟨-, hcontra⟩
          simp [ownerSet] at hcontra
          exact hpq hcontra
        rw [if_neg hno] at h0
        exact List.count_eq_zero.mp h0
      · simp [ownerSet, hp, hpq]
      · have hq : q ≠ s.owner b := by rw [hp]; exact Ne.symm hpq
        simp [ownerSet, hq]

/-- C9: a self-transfer `b.owner = p` by the current owner `p` preserves the
exactly-one-owner invariant (afterwards `b` occurs exactly once in `p`'s
collection, neither lost nor duplicated), but rewrites `p`'s collection to
`erase b ++ [b]`: `b` now sits at the last position, no longer at its
original place in the purchase order. -/
theorem self_transfer_moves_to_last (s : EstateState) (b : BuildingId)
    (p : PersonId) (hinv : exactlyOneOwner s) (hb : b ∈ s.buildings)
    (hp : s.owner b = p) :
    exactlyOneOwner (ownerSet s b p) ∧
    (ownerSet s b p).owner b = p ∧
    (ownerSet s b p).owned p = (s.owned p).erase b ++ [b] ∧
    ((ownerSet s b p).owned p).count b = 1 ∧
    ((ownerSet s b p).owned p).getLast? = some b := by
  have hinv2 := ownerSet_preserves_inv s b p hinv hb
  have howned : (ownerSet s b p).owned p = (s.owned p).erase b ++ [b] := by
    simp [ownerSet, hp]
  refine ⟨hinv2, by simp [ownerSet], howned, ?_, ?_⟩
  · have h0 := hinv2 b p
    have hyes : b ∈ (ownerSet s b p).buildings ∧ p = (ownerSet s b p).owner b := by
      exact ⟨hb, by simp [ownerSet]⟩
    rw [if_pos hyes] at h0
    exact h0
  · rw [howned]
    exact List.getLast?_concat _

/-- C7: transferring a building `b` from `p` to a distinct person `q` moves
exactly `compute_taxes_for_building b` from `p`'s taxes to `q`'s taxes, and
leaves every other person's taxes (hence every other building's
contribution) unchanged. -/
theorem transfer_tax_delta (s : EstateState) (b : BuildingId) (p q : PersonId)
    (hinv : exactlyOneOwner s) (hb : b ∈ s.buildings) (hp : s.owner b = p)
    (hpq : p ≠ q) :
    compute_taxes (ownerSet s b q) p
        = compute_taxes s p - compute_taxes_for_building (s.kind b) ∧
    compute_taxes (ownerSet s b q) q
        = compute_taxes s q + compute_taxes_for_building (s.kind b) ∧
    (∀ r, r ≠ p → r ≠ q → compute_taxes (ownerSet s b q) r = compute_taxes s r) := by
  have hmem : b ∈ s.owned p := by
    have h1 := hinv b p
    rw [if_pos ⟨hb, hp.symm⟩] at h1
    have hpos : 0 < List.count b (s.owned p) := by rw [h1]; exact Nat.one_pos
    exact List.count_pos_iff.mp hpos
  have hperm : List.Perm (s.owned p) (b :: (s.owned p).erase b) :=
    List.perm_cons_erase hmem
  have hsum : ((s.owned p).map (fun c => compute_taxes_for_building (s.kind c))).sum
      = compute_taxes_for_building (s.kind b)
        + (((s.owned p).erase b).map (fun c => compute_taxes_for_building (s.kind c))).sum := by
    have h2 := (hperm.map (fun c => compute_taxes_for_building (s.kind c))).sum_eq
    simpa using h2
  refine ⟨?_, ?_, ?_⟩
  · have hstep : compute_taxes (ownerSet s b q) p
        = (((s.owned p).erase b).map (fun c => compute_taxes_for_building (s.kind c))).sum := by
      simp [compute_taxes, ownerSet, hp, hpq]
    rw [hstep, compute_taxes]
    linarith [hsum]
  · have hstep : compute_taxes (ownerSet s b q) q
        = ((s.owned q ++ [b]).map (fun c => compute_taxes_for_building (s.kind c))).sum := by
      simp [compute_taxes, ownerSet, hp, Ne.symm hpq]
    rw [hstep, compute_taxes]
    simp [List.map_append, List.sum_append]
  · intro r hrp hrq
    simp [compute_taxes, ownerSet, hp, hrp, hrq]

/-- C6: `compute_taxes_for_building` is
`LIVING_AREA_TAX_RATE * living_area + GARDEN_AREA_TAX_RATE * garden_area`
with the rates `5.6` and `1.5`; `compute_taxes` sums it over the person's
currently owned buildings and is `0` for a person owning none. -/
theorem compute_taxes_formulas :
    (∀ k : BuildingKind, compute_taxes_for_building k
        = 5.6 * (k.living_area : ℚ) + 1.5 * (k.garden_area : ℚ)) ∧
    LIVING_AREA_TAX_RATE = 5.6 ∧ GARDEN_AREA_TAX_RATE = 1.5 ∧
    (∀ (s : EstateState) (p : PersonId),
      compute_taxes s p
        = ((s.owned p).map (fun c => compute_taxes_for_building (s.kind c))).sum) ∧
    (∀ (s : EstateState) (p : PersonId), s.owned p = [] → compute_taxes s p = 0) := by
  refine ⟨fun k => rfl, rfl, rfl, fun s p => rfl, fun s p h => ?_⟩
  rw [compute_taxes, h]
  rfl

lemma estate1_def : (buildingInit emptyEstate 0 0 (.house 2 3)).buildings = [0] := rfl

lemma estate1_inv : exactlyOneOwner (buildingInit emptyEstate 0 0 (.house 2 3)) :=
  buildingInit_preserves_inv emptyEstate 0 0 (.house 2 3) emptyEstate_inv (by simp [emptyEstate])

/-- Witness for C1: on the concrete heap where person `0` has constructed
house `0`, the construction and the transfer to person `1` exhibit the
claimed behaviour. -/
theorem building_exactly_one_owner_witness :
    exactlyOneOwner (ownerSet (buildingInit emptyEstate 0 0 (.house 2 3)) 0 1) ∧
    (ownerSet (buildingInit emptyEstate 0 0 (.house 2 3)) 0 1).owner 0 = 1 ∧
    0 ∈ (ownerSet (buildingInit emptyEstate 0 0 (.house 2 3)) 0 1).owned 1 := by
  have h := building_exactly_one_owner (buildingInit emptyEstate 0 0 (.house 2 3))
      0 0 1 (.house 2 3) estate1_inv
  have h2 := h.2 (by rw [estate1_def]; exact List.mem_singleton.mpr rfl) rfl
  exact ⟨h2.1, h2.2.1, h2.2.2.1⟩

/-- Witness for C9: person `0` owns houses `0` and `1` in this order; the
self-transfer of house `0` keeps the invariant and moves `0` to the end. -/
theorem self_transfer_moves_to_last_witness :
    ((ownerSet (buildingInit (buildingInit emptyEstate 0 0 (.house 2 3)) 1 0 (.house 4 5))
        0 0).owned 0).getLast? = some 0 ∧
    ((ownerSet (buildingInit (buildingInit emptyEstate 0 0 (.house 2 3)) 1 0 (.house 4 5))
        0 0).owned 0).count 0 = 1 := by
  have hinv2 : exactlyOneOwner
      (buildingInit (buildingInit emptyEstate 0 0 (.house 2 3)) 1 0 (.house 4 5)) :=
    buildingInit_preserves_inv (buildingInit emptyEstate 0 0 (.house 2 3)) 1 0
      (.house 4 5) estate1_inv (by rw [estate1_def]; simp)
  have h := self_transfer_moves_to_last
      (buildingInit (buildingInit emptyEstate 0 0 (.house 2 3)) 1 0 (.house 4 5)) 0 0
      hinv2 (by simp [buildingInit, emptyEstate]) rfl
  exact ⟨h.2.2.2.2, h.2.2.2.1⟩

/-- Witness for C7: transferring house `0` (living area 2, garden area 3)
from person `0` to person `1` moves its taxes from `0` to `1`. -/
theorem transfer_tax_delta_witness :
    compute_taxes (ownerSet (buildingInit emptyEstate 0 0 (.house 2 3)) 0 1) 0
      = compute_taxes (buildingInit emptyEstate 0 0 (.house 2 3)) 0
        - compute_taxes_for_building (.house 2 3) ∧
    compute_taxes (ownerSet (buildingInit emptyEstate 0 0 (.house 2 3)) 0 1) 1
      = compute_taxes (buildingInit emptyEstate 0 0 (.house 2 3)) 1
        + compute_taxes_for_building (.house 2 3) := by
  have h := transfer_tax_delta (buildingInit emptyEstate 0 0 (.house 2 3)) 0 0 1
      estate1_inv (by rw [estate1_def]; exact List.mem_singleton.mpr rfl) rfl
      (by decide)
  exact ⟨h.1, h.2.1⟩

/-- Witness for C6: the empty heap gives person `0` zero taxes. -/
theorem compute_taxes_formulas_witness : compute_taxes emptyEstate 0 = 0 :=
  compute_taxes_formulas.2.2.2.2 emptyEstate 0 rfl

end Estate
